import Mathlib

/-!
Verification development for the PharmXD data-preparation scripts
(`00-download-drug-labels.py` and `01-download-opensnp.py`).

The pure core of the two scripts is shallowly embedded below:
  * the pharmacogenomics keyword classifier `extract_pharmacogenomics_info`,
  * the label index builder `create_drug_index`,
  * the genotype-line parser `extract_pgx_snps_from_file`,
  * the bundle processor `process_opensnp_bundle`,
  * the sample curator `create_sample_genotypes`.

Python dicts are embedded as association lists preserving insertion order,
Python `None` as `Option.none`, and code paths that raise exceptions return
`Except PyErr`.  Randomness (`random.sample`) is abstracted as a sampler
parameter together with its documented contract (`SampleSpec`): the result
has length `min k |population|` and is a sub-permutation (a draw without
replacement) of the population.
-/

namespace Pharmxd

/-- Errors that the embedded Python code can raise. -/
inductive PyErr where
  | typeError : PyErr
  | keyError : PyErr
deriving DecidableEq

/-! ### Small string utilities

These reimplement, structurally over `String.data`, the Python string
operations used by the scripts (`startswith`, `strip`, `split`, `lower`,
substring membership via `in`), so that every definition reduces in the
kernel. -/

/-- `charListPrefix p l` is true iff `p` is a prefix of `l`. -/
def charListPrefix : List Char → List Char → Bool
  | [], _ => true
  | _ :: _, [] => false
  | a :: as, b :: bs => a = b && charListPrefix as bs

/-- `charListSubstr needle hay`: `needle` occurs contiguously in `hay`
(Python's `needle in hay`; the empty needle always occurs). -/
def charListSubstr : List Char → List Char → Bool
  | needle, [] => needle.isEmpty
  | needle, h :: t => charListPrefix needle (h :: t) || charListSubstr needle t

/-- Python `needle in hay` on strings. -/
def substrMem (hay needle : String) : Bool :=
  charListSubstr needle.data hay.data

/-- Python `s.startswith(p)`. -/
def strStartsWith (s p : String) : Bool :=
  charListPrefix p.data s.data

/-- Python `s.lower()` (ASCII case folding, which covers all keywords and
inputs the scripts deal with). -/
def strLower (s : String) : String :=
  ⟨s.data.map Char.toLower⟩

/-- Python `s.strip()`: drop whitespace from both ends. -/
def strTrim (s : String) : String :=
  ⟨((s.data.dropWhile Char.isWhitespace).reverse.dropWhile Char.isWhitespace).reverse⟩

/-- Python `s.split(c)` for a single-character separator: split on every
occurrence, keeping empty fields (`"".split(c) == ['']`). -/
def splitOnChar (c : Char) (l : List Char) : List (List Char) :=
  l.foldr
    (fun ch acc =>
      if ch = c then [] :: acc
      else
        match acc with
        | [] => [[ch]]
        | g :: gs => (ch :: g) :: gs)
    [[]]

/-- Python `" ".join(l)`. -/
def joinSpace : List String → String
  | [] => ""
  | [x] => x
  | x :: rest => x ++ " " ++ joinSpace rest

/-! ### Association lists: the embedding of Python `dict`

Python 3 dicts preserve insertion order; `d[k] = v` updates the value in
place when `k` is present and appends otherwise. -/

/-- Python `d.get(k)` / `d[k]` lookup on an insertion-ordered dict. -/
def alookup {β : Type} (k : String) : List (String × β) → Option β
  | [] => none
  | (k', v) :: rest => if k' = k then some v else alookup k rest

/-- Python `d[k] = v` on an insertion-ordered dict: update in place if the
key is present, append otherwise. -/
def alInsert {β : Type} : List (String × β) → String → β → List (String × β)
  | [], k, v => [(k, v)]
  | (k', v') :: rest, k, v =>
      if k' = k then (k', v) :: rest else (k', v') :: alInsert rest k v

theorem alookup_alInsert {β : Type} (d : List (String × β)) (k r : String) (v : β) :
    alookup r (alInsert d k v) = if r = k then some v else alookup r d := by
  induction d with
  | nil =>
      by_cases h : r = k
      · simp [alInsert, alookup, h]
      · simp [alInsert, alookup, h, Ne.symm h]
  | cons p rest ih =>
      obtain ⟨k', v'⟩ := p
      by_cases hk : k' = k
      · subst hk
        by_cases hr : r = k'
        · simp [alInsert, alookup, hr]
        · simp [alInsert, alookup, hr, Ne.symm hr]
      · by_cases hr : k' = r
        · subst hr
          simp [alInsert, alookup, hk]
        · simp [alInsert, hk, alookup, hr, ih]

/-! ### The variant catalog `PGX_SNPS`
(`01-download-opensnp.py`, lines 58–94). -/

/-- One catalog entry: gene symbol, star-allele label, functional effect. -/
structure VariantInfo where
  gene : String
  allele : String
  effect : String
deriving DecidableEq

/-- The fixed PGx variant catalog, verbatim from the source. -/
def PGX_SNPS : List (String × VariantInfo) :=
  [ ("rs4244285", ⟨"CYP2C19", "*2", "no_function"⟩),
    ("rs4986893", ⟨"CYP2C19", "*3", "no_function"⟩),
    ("rs12248560", ⟨"CYP2C19", "*17", "increased_function"⟩),
    ("rs28399504", ⟨"CYP2C19", "*4", "no_function"⟩),
    ("rs3892097", ⟨"CYP2D6", "*4", "no_function"⟩),
    ("rs5030655", ⟨"CYP2D6", "*6", "no_function"⟩),
    ("rs16947", ⟨"CYP2D6", "*2", "normal_function"⟩),
    ("rs1065852", ⟨"CYP2D6", "*10/*4", "decreased_function"⟩),
    ("rs28371725", ⟨"CYP2D6", "*41", "decreased_function"⟩),
    ("rs1799853", ⟨"CYP2C9", "*2", "decreased_function"⟩),
    ("rs1057910", ⟨"CYP2C9", "*3", "decreased_function"⟩),
    ("rs9923231", ⟨"VKORC1", "-1639G>A", "decreased_expression"⟩),
    ("rs4149056", ⟨"SLCO1B1", "*5", "decreased_function"⟩),
    ("rs3918290", ⟨"DPYD", "*2A", "no_function"⟩),
    ("rs55886062", ⟨"DPYD", "*13", "no_function"⟩),
    ("rs67376798", ⟨"DPYD", "D949V", "decreased_function"⟩),
    ("rs1800460", ⟨"TPMT", "*3B", "no_function"⟩),
    ("rs1142345", ⟨"TPMT", "*3C", "no_function"⟩),
    ("rs1800462", ⟨"TPMT", "*2", "no_function"⟩),
    ("rs887829", ⟨"UGT1A1", "*80", "tag_for_UGT1A1*28"⟩) ]

/-- Python `rsid in PGX_SNPS`. -/
def catalogMem (rsid : String) : Bool :=
  (alookup rsid PGX_SNPS).isSome

/-! ### The genotype-line parser `extract_pgx_snps_from_file`
(`01-download-opensnp.py`, lines 149–190).

A file is embedded as its list of text lines.  Per line the code skips
comments, tries a tab-delimited split of the stripped line requiring at
least 4 fields (field 0 is the variant id, field 3 the genotype), else, if
the raw line contains a comma, the comma-delimited split under the same
rule.  `parseLine` returns the (rsid, genotype) pair a line yields, if
any. -/

/-- Field extraction shared by both delimiters: Python
`rsid = parts[0]; genotype = parts[3] if len(parts) > 3 else parts[-1]`,
guarded by `len(parts) >= 4`. -/
def fieldsOf (parts : List (List Char)) : Option (String × String) :=
  if parts.length ≥ 4 then
    some (⟨parts.getD 0 []⟩,
      ⟨if parts.length > 3 then parts.getD 3 [] else parts.getLastD []⟩)
  else none

/-- One iteration of the line loop of `extract_pgx_snps_from_file`:
the (rsid, genotype) pair the line contributes, or `none` for comments and
lines matching no delimiter rule. -/
def parseLine (line : String) : Option (String × String) :=
  if strStartsWith line "#" then none
  else
    match fieldsOf (splitOnChar '\t' (strTrim line).data) with
    | some p => some p
    | none =>
        if line.data.contains ',' then
          fieldsOf (splitOnChar ',' (strTrim line).data)
        else none

/-- The dict update performed for one line:
`if rsid in PGX_SNPS: pgx_genotypes[rsid] = genotype`. -/
def extractStep (d : List (String × String)) (line : String) : List (String × String) :=
  match parseLine line with
  | none => d
  | some (rsid, gt) => if catalogMem rsid then alInsert d rsid gt else d

/-- `extract_pgx_snps_from_file`, on the line stream of an already-opened
file (the `open`/decode error handling is the excluded file-access
collaborator; a caught error yields the dict built so far, i.e. the same
fold over the lines actually read). -/
def extract_pgx_snps_from_file (lines : List String) : List (String × String) :=
  lines.foldl extractStep []

/-! ### The bundle processor `process_opensnp_bundle`
(`01-download-opensnp.py`, lines 193–246).

Zip listing, the random choice of at most `max_samples` file names and the
extract/unlink bookkeeping are the excluded archive collaborator; the core
per-file loop receives the chosen files as (name, line list) pairs. -/

/-- A per-sample record as built by `process_opensnp_bundle`
(a `SampleVariantMap` in the spec's data model). -/
structure Sample where
  sample_id : String
  source_file : String
  pgx_snps : List (String × String)
  snp_count : Nat
deriving DecidableEq

/-- Rejoin dot-separated name pieces. -/
def joinDots : List (List Char) → List Char
  | [] => []
  | [x] => x
  | x :: rest => x ++ '.' :: joinDots rest

/-- `pathlib.Path(filename).stem`: the final path component without its
last extension (a lone leading dot does not start an extension). -/
def pathStem (filename : String) : String :=
  let name := (splitOnChar '/' filename.data).getLastD []
  let parts := splitOnChar '.' name
  if parts.length ≤ 1 then ⟨name⟩
  else if parts.length = 2 ∧ parts.getD 0 [] = [] then ⟨name⟩
  else ⟨joinDots parts.dropLast⟩

/-- The per-file loop body of `process_opensnp_bundle`: extract the PGx
SNPs of each file and append a sample record iff the extracted dict is
non-empty (`if pgx_data:`). -/
def process_opensnp_bundle : List (String × List String) → List Sample
  | [] => []
  | (name, content) :: rest =>
      let pgx := extract_pgx_snps_from_file content
      if pgx.isEmpty then process_opensnp_bundle rest
      else
        { sample_id := pathStem name
          source_file := name
          pgx_snps := pgx
          snp_count := pgx.length } :: process_opensnp_bundle rest

/-! ### The classifier `extract_pharmacogenomics_info`
(`00-download-drug-labels.py`, lines 174–236).

A label payload (`label_data`) is a dict that may or may not carry a
`"results"` key holding a list of sub-records; each sub-record maps
section names to text (a string or a list of strings) and may carry an
`"openfda"` metadata dict. -/

/-- A section's value: Python code joins a list with spaces and keeps a
string as is (`str` of a string). -/
inductive SecVal where
  | strs : List String → SecVal
  | str : String → SecVal
deriving DecidableEq

/-- `" ".join(v)` if the value is a list else `str(v)`. -/
def normalizeSec : SecVal → String
  | .strs l => joinSpace l
  | .str s => s

/-- The `openfda` metadata sub-dict of one result record; each key may be
absent (`.get(key, [])` supplies the default). -/
structure OpenFdaMeta where
  brand_name : Option (List String)
  manufacturer_name : Option (List String)
deriving DecidableEq

/-- One record of `label_data["results"]`. -/
structure LabelResult where
  sections : List (String × SecVal)
  openfda : Option OpenFdaMeta
deriving DecidableEq

/-- A primary-source label payload: a dict that may lack the `"results"`
key (`results = none`). -/
structure LabelData where
  results : Option (List LabelResult)
deriving DecidableEq

/-- The fixed keyword table `pgx_keywords` (source lines 192–198). -/
def pgxKeywords : List String :=
  [ "CYP2D6", "CYP2C19", "CYP2C9", "CYP3A4", "CYP3A5",
    "VKORC1", "SLCO1B1", "DPYD", "TPMT", "UGT1A1",
    "poor metabolizer", "intermediate metabolizer", "extensive metabolizer",
    "ultrarapid metabolizer", "pharmacogenomic", "pharmacogenetic",
    "genetic polymorphism", "genotype", "phenotype" ]

/-- The fixed recognized-section table `pgx_sections` (source lines 201–209). -/
def pgxSectionNames : List String :=
  [ "clinical_pharmacology", "drug_interactions", "warnings_and_cautions",
    "warnings", "precautions", "dosage_and_administration",
    "use_in_specific_populations" ]

/-- The fixed non-CYP gene-symbol list of the gene-tracking test
(source line 227). -/
def geneSymbols : List String :=
  ["VKORC1", "SLCO1B1", "DPYD", "TPMT", "UGT1A1"]

/-- `keyword.startswith("CYP") or keyword in [...]` (source line 227). -/
def isGeneKeyword (kw : String) : Bool :=
  strStartsWith kw "CYP" || decide (kw ∈ geneSymbols)

/-- The mutable `pgx_info` accumulator of the classifier. -/
structure PgxInfo where
  has_pharmacogenomics : Bool
  pgx_sections : List String
  mentioned_genes : List String
  mentioned_metabolizers : List String
deriving DecidableEq

/-- The accumulator's initial value (source lines 184–189). -/
def initPgxInfo : PgxInfo :=
  { has_pharmacogenomics := false
    pgx_sections := []
    mentioned_genes := []
    mentioned_metabolizers := [] }

/-- `if x not in l: l.append(x)`. -/
def addUnique (l : List String) (x : String) : List String :=
  if x ∈ l then l else l ++ [x]

/-- The body of the innermost keyword loop (source lines 220–234), for a
fixed section name and the lower-cased section text. -/
def keywordStep (sec : String) (textLower : String) (st : PgxInfo) (kw : String) : PgxInfo :=
  if substrMem textLower (strLower kw) then
    { has_pharmacogenomics := true
      pgx_sections := addUnique st.pgx_sections sec
      mentioned_genes :=
        if isGeneKeyword kw then addUnique st.mentioned_genes kw else st.mentioned_genes
      mentioned_metabolizers :=
        if substrMem (strLower kw) "metabolizer" then
          addUnique st.mentioned_metabolizers kw
        else st.mentioned_metabolizers }
  else st

/-- The body of the section loop (source lines 215–234): skip absent
sections, otherwise normalize and lower the text and run every keyword. -/
def sectionStep (r : LabelResult) (st : PgxInfo) (sec : String) : PgxInfo :=
  match alookup sec r.sections with
  | none => st
  | some v => pgxKeywords.foldl (keywordStep sec (strLower (normalizeSec v))) st

/-- The body of the result loop (source line 214). -/
def resultStep (st : PgxInfo) (r : LabelResult) : PgxInfo :=
  pgxSectionNames.foldl (sectionStep r) st

/-- `extract_pharmacogenomics_info` on a dict argument: return the empty
record when the `"results"` key is absent, else fold the loops. -/
def extract_pharmacogenomics_info (ld : LabelData) : PgxInfo :=
  match ld.results with
  | none => initPgxInfo
  | some rs => rs.foldl resultStep initPgxInfo

/-- `extract_pharmacogenomics_info` as actually invoked by
`create_drug_index` (source line 264): the argument
`data.get("openfda", {})` is the bundle's `"openfda"` value, which is
Python `None` whenever the OpenFDA fetch failed, and the function then
raises `TypeError` at `"results" not in label_data`. -/
def extractPgxPy : Option LabelData → Except PyErr PgxInfo
  | none => .error .typeError
  | some ld => .ok (extract_pharmacogenomics_info ld)

/-- The Boolean mirror of "some keyword matches in the text of section
`sec` of result `r`". -/
def sectionMatches (r : LabelResult) (sec : String) : Bool :=
  match alookup sec r.sections with
  | none => false
  | some v => pgxKeywords.any fun kw => substrMem (strLower (normalizeSec v)) (strLower kw)

/-- "At least one keyword matched in at least one recognized section". -/
def existsKeywordMatch (ld : LabelData) : Bool :=
  match ld.results with
  | none => false
  | some rs => rs.any fun r => pgxSectionNames.any (sectionMatches r)

/-! ### The index builder `create_drug_index`
(`00-download-drug-labels.py`, lines 239–293).

The input maps each drug name to its fetch bundle (`None` when the drug
was skipped).  A bundle is the dict built by `download_all_mvp_drugs`:
an `"openfda"` payload (`None` on fetch failure), a `"dailymed"` payload
(presence only — classification never reads it), and a timestamp (an
external clock value, not part of the pure core). -/

/-- A per-drug fetch bundle. -/
structure Bundle where
  openfda : Option LabelData
  dailymed : Option Unit
deriving DecidableEq

/-- One `drugs[]` entry of the index.  `brand_names`/`manufacturer` are
`none` when the Python dict never receives those keys. -/
structure DrugEntry where
  name : String
  has_openfda : Bool
  has_dailymed : Bool
  pgx_info : PgxInfo
  brand_names : Option (List String)
  manufacturer : Option (List String)
deriving DecidableEq

/-- The brand/manufacturer metadata of the first sub-record carrying an
`"openfda"` key (source lines 274–279); the guard
`data.get("openfda") and "results" in data["openfda"]` requires a truthy
payload that has the `"results"` key. -/
def firstMeta (openfda : Option LabelData) : Option (List String × List String) :=
  match openfda with
  | none => none
  | some ld =>
      match ld.results with
      | none => none
      | some rs =>
          match rs.find? (fun r => r.openfda.isSome) with
          | none => none
          | some r =>
              match r.openfda with
              | none => none
              | some m => some (m.brand_name.getD [], m.manufacturer_name.getD [])

/-- The search index (`meta.created` is an external clock value and
`meta.source` a constant string; neither carries logic). -/
structure LabelIndex where
  total_drugs : Nat
  drugs : List (String × DrugEntry)
  by_gene : List (String × List String)
  pgx_relevant : List String
deriving DecidableEq

/-- `by_gene` update for one gene of one drug (source lines 284–287):
create the gene's list if absent, then append the drug name. -/
def byGeneAdd (bg : List (String × List String)) (gene drug : String) :
    List (String × List String) :=
  match bg with
  | [] => [(gene, [drug])]
  | (g, ds) :: rest =>
      if g = gene then (g, ds ++ [drug]) :: rest else (g, ds) :: byGeneAdd rest gene drug

/-- The loop body of `create_drug_index` for one (drug, bundle) pair
(source lines 260–291). -/
def drugStep (idx : LabelIndex) (p : String × Option Bundle) : Except PyErr LabelIndex :=
  match p.2 with
  | none => .ok idx
  | some data =>
      match extractPgxPy data.openfda with
      | .error e => .error e
      | .ok pgx =>
          let meta := firstMeta data.openfda
          let entry : DrugEntry :=
            { name := p.1
              has_openfda := data.openfda.isSome
              has_dailymed := data.dailymed.isSome
              pgx_info := pgx
              brand_names := meta.map Prod.fst
              manufacturer := meta.map Prod.snd }
          .ok
            { total_drugs := idx.total_drugs
              drugs := alInsert idx.drugs p.1 entry
              by_gene := pgx.mentioned_genes.foldl (fun b g => byGeneAdd b g p.1) idx.by_gene
              pgx_relevant :=
                if pgx.has_pharmacogenomics then idx.pgx_relevant ++ [p.1]
                else idx.pgx_relevant }

/-- The drug loop: a `TypeError` raised for one drug aborts the whole
index construction. -/
def drugLoop : LabelIndex → List (String × Option Bundle) → Except PyErr LabelIndex
  | idx, [] => .ok idx
  | idx, p :: rest =>
      match drugStep idx p with
      | .error e => .error e
      | .ok idx' => drugLoop idx' rest

/-- `create_drug_index`: `total_drugs` is `len(all_labels)` — the size of
the input mapping — fixed before the loop runs. -/
def create_drug_index (all_labels : List (String × Option Bundle)) :
    Except PyErr LabelIndex :=
  drugLoop
    { total_drugs := all_labels.length
      drugs := []
      by_gene := []
      pgx_relevant := [] }
    all_labels

/-! ### The sample curator `create_sample_genotypes`
(`01-download-opensnp.py`, lines 249–307).

`random.sample(population, k)` is abstracted as a sampler parameter; its
documented contract — a `k`-length list of elements chosen from the
population without replacement (the script only ever calls it with
`k ≤ len(population)`, so the contract is stated with `min`) — is the
proposition `SampleSpec`. -/

/-- The contract of `random.sample`: the draw has length
`min k |population|` and is a sub-permutation (choice without
replacement) of the population. -/
def SampleSpec (sampler : List Sample → Nat → List Sample) : Prop :=
  ∀ pop k, (sampler pop k).length = min k pop.length ∧ List.Subperm (sampler pop k) pop

/-- `s["snp_count"] >= 10` (source line 260). -/
def wellCovered (s : Sample) : Bool :=
  decide (10 ≤ s.snp_count)

/-- The selection phase of `create_sample_genotypes` (source lines
259–266): filter to well-covered samples, fall back to
`samples[:num_samples]` when they are scarce, then draw
`min(num_samples, len(good_samples))` of them at random. -/
def selectedSamples (sampler : List Sample → Nat → List Sample)
    (samples : List Sample) (num_samples : Nat) : List Sample :=
  let good := samples.filter wellCovered
  let good := if good.length < num_samples then samples.take num_samples else good
  sampler good (min num_samples good.length)

/-- One rendered `rsid\tgene\t0\tgenotype` output line (source line 282). -/
structure RenderedLine where
  rsid : String
  gene : String
  position : Nat
  genotype : String
deriving DecidableEq

/-- Rendering of one variant entry: `info = PGX_SNPS[rsid]` raises
`KeyError` when `rsid` is not in the catalog; the written position is the
literal `0`. -/
def renderLine (p : String × String) : Except PyErr RenderedLine :=
  match alookup p.1 PGX_SNPS with
  | none => .error .keyError
  | some info => .ok ⟨p.1, info.gene, 0, p.2⟩

/-- Render every entry of a sample's variant dict, in insertion order. -/
def renderLines : List (String × String) → Except PyErr (List RenderedLine)
  | [] => .ok []
  | p :: rest =>
      match renderLine p with
      | .error e => .error e
      | .ok l =>
          match renderLines rest with
          | .error e => .error e
          | .ok ls => .ok (l :: ls)

/-- `f"{i:02d}"` for the one- and two-digit ordinals the script produces. -/
def pad2 (i : Nat) : String :=
  if i < 10 then "0" ++ Nat.repr i else Nat.repr i

/-- One curated output file (a `CuratedSample` in the spec's data model). -/
structure CuratedSample where
  output_file : String
  origin_sample_id : String
  rendered_lines : List RenderedLine
deriving DecidableEq

/-- Render the `i`-th (1-based) selected sample into its output file. -/
def renderSample (i : Nat) (s : Sample) : Except PyErr CuratedSample :=
  match renderLines s.pgx_snps with
  | .error e => .error e
  | .ok ls => .ok ⟨"sample_" ++ pad2 i ++ ".txt", s.sample_id, ls⟩

/-- The per-sample output loop (source lines 268–284), enumerating from 1. -/
def renderAll : Nat → List Sample → Except PyErr (List CuratedSample)
  | _, [] => .ok []
  | i, s :: rest =>
      match renderSample i s with
      | .error e => .error e
      | .ok c =>
          match renderAll (i + 1) rest with
          | .error e => .error e
          | .ok cs => .ok (c :: cs)

/-- One entry of the summary index (source lines 294–301). -/
structure SummaryEntry where
  file : String
  original_id : String
  pgx_snp_count : Nat
deriving DecidableEq

/-- The summary's `samples` list, enumerating the selected samples from 1. -/
def mkEntries : Nat → List Sample → List SummaryEntry
  | _, [] => []
  | i, s :: rest =>
      ⟨"sample_" ++ pad2 i ++ ".txt", s.sample_id, s.snp_count⟩ :: mkEntries (i + 1) rest

/-- The summary index (`meta.created`/`source`/`license` are constants or
external clock values). -/
structure SampleSummary where
  num_samples : Nat
  entries : List SummaryEntry
deriving DecidableEq

/-- `create_sample_genotypes`: select, render each selected sample (an
uncaught `KeyError` aborts the run before the summary is written), then
build the summary index over the same selected list. -/
def create_sample_genotypes (sampler : List Sample → Nat → List Sample)
    (samples : List Sample) (num_samples : Nat) :
    Except PyErr (List CuratedSample × SampleSummary) :=
  let selected := selectedSamples sampler samples num_samples
  match renderAll 1 selected with
  | .error e => .error e
  | .ok curated => .ok (curated, ⟨selected.length, mkEntries 1 selected⟩)

/-! ## Helper lemmas for the parser -/

/-- A line contributes nothing to the output map: it is a comment, fails
both delimiter rules, or its extracted identifier is not in the catalog. -/
def lineNoCatalog (l : String) : Bool :=
  match parseLine l with
  | none => true
  | some (r, _) => !catalogMem r

theorem foldl_extractStep_eq_of_noCatalog (lines : List String) :
    ∀ d : List (String × String), (∀ l ∈ lines, lineNoCatalog l = true) →
      lines.foldl extractStep d = d := by
  induction lines with
  | nil => intro d _; rfl
  | cons l ls ih =>
      intro d h
      have hl := h l (List.mem_cons_self l ls)
      have hls : ∀ l' ∈ ls, lineNoCatalog l' = true :=
        fun l' hm => h l' (List.mem_cons_of_mem l hm)
      have hstep : extractStep d l = d := by
        unfold lineNoCatalog at hl
        unfold extractStep
        cases hp : parseLine l with
        | none => rfl
        | some p =>
            obtain ⟨r, g⟩ := p
            rw [hp] at hl
            simp only [Bool.not_eq_true'] at hl
            simp [hl]
      rw [List.foldl_cons, hstep, ih d hls]

/-- The genotype value line `l` contributes for key `r`: the line parses,
its identifier is in the catalog and equals `r`. -/
def contribOf (r : String) (l : String) : Option String :=
  match parseLine l with
  | none => none
  | some (r', g) => if catalogMem r' = true ∧ r' = r then some g else none

/-- All genotype values the file's lines record for key `r`, in file
order. -/
def contributions (r : String) (lines : List String) : List String :=
  lines.filterMap (contribOf r)

theorem getLast?_cons_eq (a : String) (l : List String) :
    (a :: l).getLast? = match l.getLast? with | some b => some b | none => some a := by
  induction l generalizing a with
  | nil => rfl
  | cons b t ih =>
      rw [List.getLast?_cons_cons, ih b]
      cases ht : t.getLast? <;> simp

theorem foldl_extractStep_lookup (lines : List String) :
    ∀ (d : List (String × String)) (r : String),
      alookup r (lines.foldl extractStep d) =
        match (contributions r lines).getLast? with
        | some g => some g
        | none => alookup r d := by
  induction lines with
  | nil => intro d r; rfl
  | cons l ls ih =>
      intro d r
      rw [List.foldl_cons]
      cases hp : parseLine l with
      | none =>
          have hstep : extractStep d l = d := by unfold extractStep; rw [hp]
          have hco : contribOf r l = none := by unfold contribOf; rw [hp]
          rw [hstep, ih d r]
          unfold contributions
          rw [List.filterMap_cons, hco]
      | some p =>
          obtain ⟨r', g⟩ := p
          by_cases hc : catalogMem r' = true
          · by_cases hr : r' = r
            · subst hr
              have hstep : extractStep d l = alInsert d r' g := by
                unfold extractStep; rw [hp]; simp [hc]
              have hco : contribOf r' l = some g := by
                unfold contribOf; rw [hp]; simp [hc]
              rw [hstep, ih (alInsert d r' g) r']
              unfold contributions
              rw [List.filterMap_cons, hco, getLast?_cons_eq]
              cases hcs : (List.filterMap (contribOf r') ls).getLast? with
              | none => simp [alookup_alInsert]
              | some g' => simp
            · have hstep : extractStep d l = alInsert d r' g := by
                unfold extractStep; rw [hp]; simp [hc]
              have hco : contribOf r l = none := by
                unfold contribOf; rw [hp]; simp [hr]
              rw [hstep, ih (alInsert d r' g) r]
              unfold contributions
              rw [List.filterMap_cons, hco]
              cases hcs : (List.filterMap (contribOf r) ls).getLast? with
              | none => simp [alookup_alInsert, Ne.symm hr]
              | some g' => simp
          · have hstep : extractStep d l = d := by
              unfold extractStep; rw [hp]
              simp only [Bool.not_eq_true] at hc
              simp [hc]
            have hco : contribOf r l = none := by
              unfold contribOf; rw [hp]; simp [hc]
            rw [hstep, ih d r]
            unfold contributions
            rw [List.filterMap_cons, hco]

/-! ## C6 -/

/-- C6: `extract` (`extract_pgx_snps_from_file`) returns the empty map on a
file all of whose lines are comments or yield no catalog-listed variant
identifier; and on the well-formed tab-delimited 23andMe-style line
`rs4244285\tchr10\t12345\tAG` (a catalog-listed rsid) it returns exactly
the map sending that rsid to the fourth field `AG`. -/
theorem claim_C6 :
    (∀ lines : List String, (∀ l ∈ lines, lineNoCatalog l = true) →
      extract_pgx_snps_from_file lines = []) ∧
    extract_pgx_snps_from_file ["rs4244285\tchr10\t12345\tAG"] = [("rs4244285", "AG")] :=
  ⟨fun lines h => foldl_extractStep_eq_of_noCatalog lines [] h, by decide⟩

/-- Witness for C6 at a concrete file of one comment line and one line
with a non-catalog identifier. -/
theorem claim_C6_witness :
    (∀ l ∈ ["# comment", "rs9999\ta\tb\tCC"], lineNoCatalog l = true) ∧
    extract_pgx_snps_from_file ["# comment", "rs9999\ta\tb\tCC"] = [] :=
  ⟨by decide, claim_C6.1 ["# comment", "rs9999\ta\tb\tCC"] (by decide)⟩

/-! ## C7 -/

/-- C7: when the same catalog variant identifier is recorded by more than
one parseable line of the file, `extract` maps it to the genotype of its
last occurrence (map-overwrite semantics). -/
theorem claim_C7 (lines : List String) (r : String)
    (h : 2 ≤ (contributions r lines).length) :
    alookup r (extract_pgx_snps_from_file lines) = (contributions r lines).getLast? := by
  unfold extract_pgx_snps_from_file
  rw [foldl_extractStep_lookup lines [] r]
  have hne : contributions r lines ≠ [] := by
    intro he
    rw [he] at h
    exact absurd h (by decide)
  cases hcs : (contributions r lines).getLast? with
  | none =>
      exact absurd (List.getLast?_eq_none_iff.mp hcs) hne
  | some g => rfl

/-- Witness for C7 at a concrete file recording `rs16947` twice; the result
maps it to the later genotype. -/
theorem claim_C7_witness :
    2 ≤ (contributions "rs16947" ["rs16947\ta\tb\tAA", "rs16947\ta\tb\tGG"]).length ∧
    alookup "rs16947" (extract_pgx_snps_from_file ["rs16947\ta\tb\tAA", "rs16947\ta\tb\tGG"]) =
      (contributions "rs16947" ["rs16947\ta\tb\tAA", "rs16947\ta\tb\tGG"]).getLast? ∧
    (contributions "rs16947" ["rs16947\ta\tb\tAA", "rs16947\ta\tb\tGG"]).getLast? = some "GG" :=
  ⟨by decide,
   claim_C7 ["rs16947\ta\tb\tAA", "rs16947\ta\tb\tGG"] "rs16947" (by decide),
   by decide⟩

/-! ## C10 -/

/-- C10: every sample record emitted by `process_opensnp_bundle` has
`snp_count ≥ 1` (its variant map is non-empty), and a file whose extracted
variant map is empty produces no record at all. -/
theorem claim_C10 :
    (∀ (files : List (String × List String)) (s : Sample),
      s ∈ process_opensnp_bundle files → 1 ≤ s.snp_count ∧ s.pgx_snps ≠ []) ∧
    (∀ (name : String) (content : List String) (rest : List (String × List String)),
      extract_pgx_snps_from_file content = [] →
      process_opensnp_bundle ((name, content) :: rest) = process_opensnp_bundle rest) := by
  constructor
  · intro files
    induction files with
    | nil => intro s hs; exact absurd hs (List.not_mem_nil s)
    | cons f rest ih =>
        intro s hs
        obtain ⟨name, content⟩ := f
        unfold process_opensnp_bundle at hs
        by_cases he : (extract_pgx_snps_from_file content).isEmpty
        · rw [if_pos he] at hs
          exact ih s hs
        · rw [if_neg he] at hs
          rcases List.mem_cons.mp hs with hhead | htail
          · subst hhead
            have hne : extract_pgx_snps_from_file content ≠ [] := by
              intro h0
              rw [h0] at he
              exact he rfl
            refine ⟨?_, hne⟩
            show 1 ≤ (extract_pgx_snps_from_file content).length
            have := List.length_pos.mpr hne
            omega
          · exact ih s htail
  · intro name content rest h
    have hdef : process_opensnp_bundle ((name, content) :: rest) =
        if (extract_pgx_snps_from_file content).isEmpty then process_opensnp_bundle rest
        else { sample_id := pathStem name, source_file := name,
               pgx_snps := extract_pgx_snps_from_file content,
               snp_count := (extract_pgx_snps_from_file content).length } ::
             process_opensnp_bundle rest := rfl
    rw [hdef, h]
    rfl

/-- Witness for C10 at a concrete two-file bundle: the file with one
catalog variant yields a record with `snp_count = 1`, and the
comment-only file contributes nothing. -/
theorem claim_C10_witness :
    (⟨"a", "a.txt", [("rs4244285", "AG")], 1⟩ : Sample) ∈
      process_opensnp_bundle [("a.txt", ["rs4244285\tc\t0\tAG"]), ("b.txt", ["# x"])] ∧
    1 ≤ (1 : Nat) :=
  ⟨by decide,
   (claim_C10.1 [("a.txt", ["rs4244285\tc\t0\tAG"]), ("b.txt", ["# x"])]
     ⟨"a", "a.txt", [("rs4244285", "AG")], 1⟩ (by decide)).1⟩

/-! ## Helper lemmas for the classifier -/

theorem foldl_inv {α σ : Type} (P : σ → Prop) (step : σ → α → σ)
    (hstep : ∀ s a, P s → P (step s a)) :
    ∀ (l : List α) (s : σ), P s → P (l.foldl step s) := by
  intro l
  induction l with
  | nil => intro s hs; exact hs
  | cons a t ih => intro s hs; exact ih (step s a) (hstep s a hs)

theorem foldl_get_or {α σ : Type} (get : σ → Bool) (step : σ → α → σ) (f : α → Bool)
    (h : ∀ s a, get (step s a) = (get s || f a)) :
    ∀ (l : List α) (s : σ), get (l.foldl step s) = (get s || l.any f) := by
  intro l
  induction l with
  | nil => intro s; simp
  | cons a t ih =>
      intro s
      rw [List.foldl_cons, ih (step s a), h s a, List.any_cons]
      cases get s <;> cases f a <;> simp

theorem addUnique_ne_nil (l : List String) (x : String) : addUnique l x ≠ [] := by
  unfold addUnique
  by_cases hx : x ∈ l
  · simp only [if_pos hx]
    intro he
    rw [he] at hx
    exact absurd hx (List.not_mem_nil x)
  · simp [if_neg hx]

theorem mem_addUnique (l : List String) (x g : String) (h : g ∈ addUnique l x) :
    g ∈ l ∨ g = x := by
  unfold addUnique at h
  by_cases hx : x ∈ l
  · rw [if_pos hx] at h
    exact Or.inl h
  · rw [if_neg hx] at h
    rcases List.mem_append.mp h with hl | hr
    · exact Or.inl hl
    · exact Or.inr (List.mem_singleton.mp hr)

theorem keywordStep_has (sec tl : String) (st : PgxInfo) (kw : String) :
    (keywordStep sec tl st kw).has_pharmacogenomics =
      (st.has_pharmacogenomics || substrMem tl (strLower kw)) := by
  unfold keywordStep
  by_cases hm : substrMem tl (strLower kw)
  · simp [hm]
  · simp only [Bool.not_eq_true] at hm
    simp [hm]

theorem sectionStep_has (r : LabelResult) (st : PgxInfo) (sec : String) :
    (sectionStep r st sec).has_pharmacogenomics =
      (st.has_pharmacogenomics || sectionMatches r sec) := by
  unfold sectionStep sectionMatches
  cases alookup sec r.sections with
  | none => simp
  | some v =>
      exact foldl_get_or (fun st => st.has_pharmacogenomics)
        (keywordStep sec (strLower (normalizeSec v)))
        (fun kw => substrMem (strLower (normalizeSec v)) (strLower kw))
        (keywordStep_has sec (strLower (normalizeSec v))) pgxKeywords st

theorem resultStep_has (st : PgxInfo) (r : LabelResult) :
    (resultStep st r).has_pharmacogenomics =
      (st.has_pharmacogenomics || pgxSectionNames.any (sectionMatches r)) := by
  unfold resultStep
  exact foldl_get_or (fun st => st.has_pharmacogenomics) (sectionStep r)
    (sectionMatches r) (sectionStep_has r) pgxSectionNames st

theorem classify_has_eq_existsMatch (ld : LabelData) :
    (extract_pharmacogenomics_info ld).has_pharmacogenomics = existsKeywordMatch ld := by
  unfold extract_pharmacogenomics_info existsKeywordMatch
  cases ld.results with
  | none => rfl
  | some rs =>
      rw [foldl_get_or (fun st => st.has_pharmacogenomics) resultStep
        (fun r => pgxSectionNames.any (sectionMatches r))
        (fun st r => resultStep_has st r) rs initPgxInfo]
      rfl

/-- The loop-state invariant behind C5: `has_pharmacogenomics` tracks
non-emptiness of `pgx_sections`, and while it is still false the gene and
metabolizer collections are empty too. -/
def pgxInv (st : PgxInfo) : Prop :=
  (st.has_pharmacogenomics = true ↔ st.pgx_sections ≠ []) ∧
  (st.has_pharmacogenomics = false →
    st.mentioned_genes = [] ∧ st.mentioned_metabolizers = [])

theorem keywordStep_inv (sec tl : String) (st : PgxInfo) (kw : String)
    (h : pgxInv st) : pgxInv (keywordStep sec tl st kw) := by
  unfold keywordStep
  by_cases hm : substrMem tl (strLower kw)
  · simp only [hm, if_pos rfl]
    constructor
    · constructor
      · intro _
        exact addUnique_ne_nil st.pgx_sections sec
      · intro _; rfl
    · intro hfalse
      exact absurd hfalse (by simp)
  · simp only [Bool.not_eq_true] at hm
    rw [if_neg (by simp [hm])]
    exact h

theorem sectionStep_inv (r : LabelResult) (st : PgxInfo) (sec : String)
    (h : pgxInv st) : pgxInv (sectionStep r st sec) := by
  unfold sectionStep
  cases alookup sec r.sections with
  | none => exact h
  | some v =>
      exact foldl_inv pgxInv (keywordStep sec (strLower (normalizeSec v)))
        (keywordStep_inv sec (strLower (normalizeSec v))) pgxKeywords st h

theorem resultStep_inv (st : PgxInfo) (r : LabelResult)
    (h : pgxInv st) : pgxInv (resultStep st r) := by
  unfold resultStep
  exact foldl_inv pgxInv (sectionStep r) (sectionStep_inv r) pgxSectionNames st h

theorem classify_inv (ld : LabelData) : pgxInv (extract_pharmacogenomics_info ld) := by
  have hinit : pgxInv initPgxInfo := by
    constructor
    · constructor
      · intro h; exact absurd h (by decide)
      · intro h; exact absurd rfl h
    · intro _; exact ⟨rfl, rfl⟩
  unfold extract_pharmacogenomics_info
  cases ld.results with
  | none => exact hinit
  | some rs => exact foldl_inv pgxInv resultStep (fun s r => resultStep_inv s r) rs initPgxInfo hinit

/-! ## C5 -/

/-- C5: for every label payload, `has_pgx` is true iff `matched_sections`
is non-empty iff at least one keyword matched in at least one recognized
section; and when it is false all three collections are empty. -/
theorem claim_C5 (ld : LabelData) :
    ((extract_pharmacogenomics_info ld).has_pharmacogenomics = true ↔
      (extract_pharmacogenomics_info ld).pgx_sections ≠ []) ∧
    ((extract_pharmacogenomics_info ld).has_pharmacogenomics = true ↔
      existsKeywordMatch ld = true) ∧
    ((extract_pharmacogenomics_info ld).has_pharmacogenomics = false →
      (extract_pharmacogenomics_info ld).pgx_sections = [] ∧
      (extract_pharmacogenomics_info ld).mentioned_genes = [] ∧
      (extract_pharmacogenomics_info ld).mentioned_metabolizers = []) := by
  obtain ⟨hiff, hempty⟩ := classify_inv ld
  refine ⟨hiff, ?_, ?_⟩
  · rw [classify_has_eq_existsMatch ld]
  · intro hfalse
    have hsec : (extract_pharmacogenomics_info ld).pgx_sections = [] := by
      by_contra hne
      have := hiff.mpr hne
      rw [hfalse] at this
      exact absurd this (by decide)
    obtain ⟨hg, hm⟩ := hempty hfalse
    exact ⟨hsec, hg, hm⟩

/-- Witness for C5 at the payload with no `"results"` key: no section is
recognized, so `has_pgx` is false and all collections are empty. -/
theorem claim_C5_witness :
    (extract_pharmacogenomics_info ⟨none⟩).has_pharmacogenomics = false ∧
    (extract_pharmacogenomics_info ⟨none⟩).pgx_sections = [] ∧
    (extract_pharmacogenomics_info ⟨none⟩).mentioned_genes = [] ∧
    (extract_pharmacogenomics_info ⟨none⟩).mentioned_metabolizers = [] :=
  ⟨rfl, (claim_C5 ⟨none⟩).2.2 rfl⟩

/-! ## C9 -/

/-- The phenotype-keyword sublist of `pgx_keywords` (the metabolizer
phrases and generic PGx terminology): everything that is not a gene
symbol. -/
def phenoKeywords : List String :=
  [ "poor metabolizer", "intermediate metabolizer", "extensive metabolizer",
    "ultrarapid metabolizer", "pharmacogenomic", "pharmacogenetic",
    "genetic polymorphism", "genotype", "phenotype" ]

theorem keywordStep_genes (sec tl : String) (st : PgxInfo) (kw : String)
    (h : ∀ g ∈ st.mentioned_genes, isGeneKeyword g = true) :
    ∀ g ∈ (keywordStep sec tl st kw).mentioned_genes, isGeneKeyword g = true := by
  intro g hg
  unfold keywordStep at hg
  by_cases hm : substrMem tl (strLower kw) = true
  · rw [if_pos hm] at hg
    by_cases hk : isGeneKeyword kw = true
    · rw [if_pos hk] at hg
      rcases mem_addUnique st.mentioned_genes kw g hg with hin | heq
      · exact h g hin
      · rw [heq]; exact hk
    · rw [if_neg hk] at hg
      exact h g hg
  · rw [if_neg hm] at hg
    exact h g hg

theorem classify_genes_are_gene_keywords (ld : LabelData) :
    ∀ g ∈ (extract_pharmacogenomics_info ld).mentioned_genes, isGeneKeyword g = true := by
  unfold extract_pharmacogenomics_info
  cases ld.results with
  | none => intro g hg; exact absurd hg (List.not_mem_nil g)
  | some rs =>
      refine foldl_inv (fun st => ∀ g ∈ st.mentioned_genes, isGeneKeyword g = true)
        resultStep ?_ rs initPgxInfo ?_
      · intro st r hst
        unfold resultStep
        refine foldl_inv (fun st => ∀ g ∈ st.mentioned_genes, isGeneKeyword g = true)
          (sectionStep r) ?_ pgxSectionNames st hst
        intro st' sec hst'
        unfold sectionStep
        cases alookup sec r.sections with
        | none => exact hst'
        | some v =>
            exact foldl_inv (fun st => ∀ g ∈ st.mentioned_genes, isGeneKeyword g = true)
              (keywordStep sec (strLower (normalizeSec v)))
              (keywordStep_genes sec (strLower (normalizeSec v))) pgxKeywords st' hst'
      · intro g hg; exact absurd hg (List.not_mem_nil g)

theorem phenoKeywords_not_gene : ∀ p ∈ phenoKeywords, isGeneKeyword p = false := by
  decide

/-- C9: `mentioned_genes` only ever contains gene-symbol keywords — tokens
starting with `CYP` or members of the fixed list VKORC1, SLCO1B1, DPYD,
TPMT, UGT1A1 — and never phenotype keywords. -/
theorem claim_C9 (ld : LabelData) (g : String)
    (h : g ∈ (extract_pharmacogenomics_info ld).mentioned_genes) :
    (strStartsWith g "CYP" = true ∨ g ∈ geneSymbols) ∧ g ∉ phenoKeywords := by
  have hk := classify_genes_are_gene_keywords ld g h
  have hnp : g ∉ phenoKeywords := by
    intro hp
    have := phenoKeywords_not_gene g hp
    rw [hk] at this
    exact absurd this (by simp)
  unfold isGeneKeyword at hk
  by_cases hcyp : strStartsWith g "CYP" = true
  · exact ⟨Or.inl hcyp, hnp⟩
  · rw [Bool.not_eq_true] at hcyp
    rw [hcyp, Bool.false_or] at hk
    exact ⟨Or.inr (of_decide_eq_true hk), hnp⟩

/-- Witness for C9 at a payload whose warnings section mentions CYP2D6. -/
theorem claim_C9_witness :
    (strStartsWith "CYP2D6" "CYP" = true ∨ "CYP2D6" ∈ geneSymbols) ∧
    "CYP2D6" ∉ phenoKeywords :=
  claim_C9 ⟨some [⟨[("warnings", SecVal.str "cyp2d6 info")], none⟩]⟩ "CYP2D6" (by decide)

/-! ## C1

`create_drug_index` is claimed never to raise, and in particular to give a
drug whose bundle is present but whose primary-source payload is absent a
`drugs[]` entry with `has_pgx = false`.  The code contradicts this: the
bundle dict always carries the `"openfda"` key (set to Python `None` when
the OpenFDA fetch failed), so `data.get("openfda", {})` returns `None` —
the `{}` default never fires — and `extract_pharmacogenomics_info(None)`
raises `TypeError` at `"results" not in label_data`.  The code's own
`"has_openfda": data.get("openfda") is not None` and
`if data.get("openfda") and ...` lines (reachable only when the payload is
not `None`) show the claimed behaviour is the intent, making this a slip
in the code rather than in the spec. -/

/-- C1: evaluating the embedded `create_drug_index` at the failing input —
one drug with a present bundle whose primary-source payload is `None` —
yields the `TypeError`, not an index. -/
theorem claim_C1 :
    create_drug_index [("warfarin", some ⟨none, none⟩)] = .error .typeError := rfl

/-! ## C2 -/

theorem drugStep_total (idx : LabelIndex) (p : String × Option Bundle)
    (idx' : LabelIndex) (h : drugStep idx p = .ok idx') :
    idx'.total_drugs = idx.total_drugs := by
  obtain ⟨name, ob⟩ := p
  cases ob with
  | none =>
      simp only [drugStep] at h
      cases h
      rfl
  | some data =>
      simp only [drugStep] at h
      split at h
      · cases h
      · cases h
        rfl

theorem drugLoop_total (l : List (String × Option Bundle)) :
    ∀ idx idx', drugLoop idx l = .ok idx' → idx'.total_drugs = idx.total_drugs := by
  induction l with
  | nil =>
      intro idx idx' h
      cases h
      rfl
  | cons p rest ih =>
      intro idx idx' h
      unfold drugLoop at h
      split at h
      · cases h
      · rename_i idx1 hs
        rw [ih idx1 idx' h, drugStep_total idx p idx1 hs]

/-- C2 is false on the code: `total_drugs` is `len(all_labels)`, counted
before any bundle is examined.  At the one-drug input whose bundle is
absent, the built index reports `total_drugs = 1` while the number of
drugs with a non-absent bundle is 0. -/
theorem claim_C2_counterexample :
    create_drug_index [("metformin", none)] = .ok ⟨1, [], [], []⟩ ∧
    (1 : Nat) ≠ ([("metformin", (none : Option Bundle))].filter
      (fun p => p.2.isSome)).length :=
  ⟨rfl, by decide⟩

/-- C2 (amended): whenever `create_drug_index` returns an index, its
`total_drugs` equals the number of drugs in the input mapping — including
drugs whose bundle is absent — not the number of non-absent bundles. -/
theorem claim_C2 (input : List (String × Option Bundle)) (idx : LabelIndex)
    (h : create_drug_index input = .ok idx) :
    idx.total_drugs = input.length := by
  unfold create_drug_index at h
  exact drugLoop_total input _ idx h

/-- Witness for C2 (amended) at the one-drug absent-bundle input. -/
theorem claim_C2_witness :
    create_drug_index [("metformin", (none : Option Bundle))] = .ok ⟨1, [], [], []⟩ ∧
    (⟨1, [], [], []⟩ : LabelIndex).total_drugs =
      [("metformin", (none : Option Bundle))].length :=
  ⟨rfl, claim_C2 [("metformin", none)] ⟨1, [], [], []⟩ rfl⟩

/-! ## Helper lemmas for the curator -/

/-- A conforming draw that returns the first `k` samples in order
(one possible behaviour of `random.sample`). -/
def takeSampler : List Sample → Nat → List Sample :=
  fun pop k => pop.take k

/-- A conforming draw that returns the first `k` samples in reverse order
(another possible behaviour of `random.sample`, which yields its draws in
random selection order). -/
def revSampler : List Sample → Nat → List Sample :=
  fun pop k => (pop.take k).reverse

theorem takeSampler_spec : SampleSpec takeSampler := by
  intro pop k
  constructor
  · simp [takeSampler]
  · exact (List.take_sublist k pop).subperm

theorem revSampler_spec : SampleSpec revSampler := by
  intro pop k
  constructor
  · simp [revSampler]
  · exact ⟨pop.take k, (List.reverse_perm (pop.take k)).symm, List.take_sublist k pop⟩

theorem selectedSamples_scarce (sampler : List Sample → Nat → List Sample)
    (samples : List Sample) (num : Nat) (hs : SampleSpec sampler)
    (h : (samples.filter wellCovered).length < num) :
    (selectedSamples sampler samples num).Perm (samples.take num) := by
  simp only [selectedSamples]
  rw [if_pos h]
  have htlen : (samples.take num).length ≤ num := by
    rw [List.length_take]
    exact min_le_left _ _
  rw [min_eq_right htlen]
  obtain ⟨hlen, hsub⟩ := hs (samples.take num) (samples.take num).length
  rw [min_self] at hlen
  exact hsub.perm_of_length_le (le_of_eq hlen.symm)

theorem selectedSamples_mem (sampler : List Sample → Nat → List Sample)
    (hs : SampleSpec sampler) (samples : List Sample) (num : Nat) (s : Sample)
    (h : s ∈ selectedSamples sampler samples num) : s ∈ samples := by
  simp only [selectedSamples] at h
  by_cases hlt : (samples.filter wellCovered).length < num
  · rw [if_pos hlt] at h
    have := (hs (samples.take num) _).2.subset h
    exact List.take_subset num samples this
  · rw [if_neg hlt] at h
    have := (hs (samples.filter wellCovered) _).2.subset h
    exact List.mem_of_mem_filter this

theorem renderAll_ok_length (sel : List Sample) :
    ∀ (i : Nat) (cur : List CuratedSample), renderAll i sel = .ok cur →
      cur.length = sel.length := by
  induction sel with
  | nil =>
      intro i cur h
      cases h
      rfl
  | cons s rest ih =>
      intro i cur h
      unfold renderAll at h
      split at h
      · cases h
      · rename_i c hrs
        split at h
        · cases h
        · rename_i cs hrest
          cases h
          simp only [List.length_cons, ih (i + 1) cs hrest]

/-! ## C3 -/

/-- C3 is false on the code: the fallback population is indeed
`samples[:target_count]`, but `random.sample` then returns its draws in
selection order, so the output need not be in original input order.  The
reversing draw satisfies the `random.sample` contract and, on two
under-covered samples with `target_count = 2`, returns the first two
samples reversed. -/
theorem claim_C3_counterexample :
    ¬ (∀ sampler : List Sample → Nat → List Sample, SampleSpec sampler →
        ∀ (samples : List Sample) (num : Nat),
          (samples.filter wellCovered).length < num →
          selectedSamples sampler samples num = samples.take num) := by
  intro hclaim
  have h := hclaim revSampler revSampler_spec
    [⟨"s1", "f1", [], 0⟩, ⟨"s2", "f2", [], 0⟩] 2 (by decide)
  exact absurd h (by decide)

/-- C3 (amended): with fewer than `target_count` well-covered samples,
`curate` falls back to the first `target_count` samples of the full
unfiltered input as its draw population, so the selected output is a
permutation of those samples — but in the sampler's draw order, not
necessarily the original input order. -/
theorem claim_C3 (sampler : List Sample → Nat → List Sample)
    (samples : List Sample) (num : Nat) (hs : SampleSpec sampler)
    (h : (samples.filter wellCovered).length < num) :
    (selectedSamples sampler samples num).Perm (samples.take num) :=
  selectedSamples_scarce sampler samples num hs h

/-- Witness for C3 (amended) at the reversing draw on two under-covered
samples. -/
theorem claim_C3_witness :
    ([⟨"s1", "f1", [], 0⟩, ⟨"s2", "f2", [], 0⟩].filter wellCovered).length < 2 ∧
    (selectedSamples revSampler [⟨"s1", "f1", [], 0⟩, ⟨"s2", "f2", [], 0⟩] 2).Perm
      ([(⟨"s1", "f1", [], 0⟩ : Sample), ⟨"s2", "f2", [], 0⟩].take 2) :=
  ⟨by decide,
   claim_C3 revSampler [⟨"s1", "f1", [], 0⟩, ⟨"s2", "f2", [], 0⟩] 2
     revSampler_spec (by decide)⟩

/-! ## C4 -/

/-- C4: with at least `target_count` well-covered samples, `curate` draws
exactly `target_count` samples without replacement from the well-covered
subset — every selected sample has `variant_count ≥ 10` — and whenever the
rendering loop completes, exactly `target_count` curated samples are
produced. -/
theorem claim_C4 (sampler : List Sample → Nat → List Sample)
    (samples : List Sample) (num : Nat) (hs : SampleSpec sampler)
    (h : num ≤ (samples.filter wellCovered).length) :
    (selectedSamples sampler samples num).length = num ∧
    List.Subperm (selectedSamples sampler samples num) (samples.filter wellCovered) ∧
    (∀ s ∈ selectedSamples sampler samples num, 10 ≤ s.snp_count) ∧
    (∀ (cur : List CuratedSample) (sum : SampleSummary),
      create_sample_genotypes sampler samples num = .ok (cur, sum) →
      cur.length = num) := by
  have hnotlt : ¬ (samples.filter wellCovered).length < num := not_lt.mpr h
  have hsel : selectedSamples sampler samples num =
      sampler (samples.filter wellCovered) num := by
    simp only [selectedSamples]
    rw [if_neg hnotlt, min_eq_left h]
  obtain ⟨hlen, hsub⟩ := hs (samples.filter wellCovered) num
  rw [min_eq_left h] at hlen
  refine ⟨?_, ?_, ?_, ?_⟩
  · rw [hsel]
    exact hlen
  · rw [hsel]
    exact hsub
  · intro s hmem
    rw [hsel] at hmem
    have hf := hsub.subset hmem
    have hwc : wellCovered s = true := (List.mem_filter.mp hf).2
    exact of_decide_eq_true hwc
  · intro cur sum hok
    simp only [create_sample_genotypes] at hok
    split at hok
    · cases hok
    · rename_i curated hra
      cases hok
      rw [renderAll_ok_length _ 1 _ hra, hsel]
      exact hlen

/-- Witness for C4 at the order-preserving draw on one well-covered
sample. -/
theorem claim_C4_witness :
    1 ≤ ([(⟨"sA", "fA", [("rs4244285", "AG")], 10⟩ : Sample)].filter wellCovered).length ∧
    (selectedSamples takeSampler [⟨"sA", "fA", [("rs4244285", "AG")], 10⟩] 1).length = 1 :=
  ⟨by decide,
   (claim_C4 takeSampler [⟨"sA", "fA", [("rs4244285", "AG")], 10⟩] 1
     takeSampler_spec (by decide)).1⟩

/-! ## C8 -/

theorem renderLines_ok (ps : List (String × String)) :
    ∀ ls : List RenderedLine, renderLines ps = .ok ls →
      ls.length = ps.length ∧ ∀ l ∈ ls, l.position = 0 := by
  induction ps with
  | nil =>
      intro ls h
      cases h
      exact ⟨rfl, fun l hl => absurd hl (List.not_mem_nil l)⟩
  | cons p rest ih =>
      intro ls h
      unfold renderLines at h
      split at h
      · cases h
      · rename_i l0 hrl
        split at h
        · cases h
        · rename_i ls0 hrest
          cases h
          obtain ⟨hlen, hpos⟩ := ih ls0 hrest
          refine ⟨by simp [hlen], ?_⟩
          intro l hl
          rcases List.mem_cons.mp hl with hhead | htail
          · subst hhead
            unfold renderLine at hrl
            split at hrl
            · cases hrl
            · cases hrl
              rfl
          · exact hpos l htail

theorem renderSample_ok (i : Nat) (s : Sample) (c : CuratedSample)
    (h : renderSample i s = .ok c) :
    c.rendered_lines.length = s.pgx_snps.length ∧
    ∀ l ∈ c.rendered_lines, l.position = 0 := by
  unfold renderSample at h
  split at h
  · cases h
  · rename_i ls hls
    cases h
    exact renderLines_ok s.pgx_snps ls hls

theorem renderAll_entries (sel : List Sample)
    (hwf : ∀ s ∈ sel, s.snp_count = s.pgx_snps.length) :
    ∀ (i : Nat) (cur : List CuratedSample), renderAll i sel = .ok cur →
      List.Forall₂ (fun c e => c.rendered_lines.length = e.pgx_snp_count ∧
        ∀ l ∈ c.rendered_lines, l.position = 0) cur (mkEntries i sel) := by
  induction sel with
  | nil =>
      intro i cur h
      cases h
      exact List.Forall₂.nil
  | cons s rest ih =>
      intro i cur h
      unfold renderAll at h
      split at h
      · cases h
      · rename_i c hrs
        split at h
        · cases h
        · rename_i cs hrest
          cases h
          have hihyp : ∀ s' ∈ rest, s'.snp_count = s'.pgx_snps.length :=
            fun s' hm => hwf s' (List.mem_cons_of_mem s hm)
          obtain ⟨hlen, hpos⟩ := renderSample_ok i s c hrs
          refine List.Forall₂.cons ⟨?_, hpos⟩ (ih hihyp (i + 1) cs hrest)
          show c.rendered_lines.length = s.snp_count
          rw [hlen, hwf s (List.mem_cons_self s rest)]

/-- C8: for every curated sample produced by `curate`, the rendered lines
are in bijection with the origin sample's variant map — their count equals
the origin's `variant_count` (recorded as `pgx_snp_count` in the paired
summary entry) — and every rendered line carries the literal position 0. -/
theorem claim_C8 (sampler : List Sample → Nat → List Sample)
    (samples : List Sample) (num : Nat) (cur : List CuratedSample)
    (sum : SampleSummary) (hs : SampleSpec sampler)
    (hwf : ∀ s ∈ samples, s.snp_count = s.pgx_snps.length)
    (hok : create_sample_genotypes sampler samples num = .ok (cur, sum)) :
    List.Forall₂ (fun c e => c.rendered_lines.length = e.pgx_snp_count ∧
      ∀ l ∈ c.rendered_lines, l.position = 0) cur sum.entries := by
  simp only [create_sample_genotypes] at hok
  split at hok
  · cases hok
  · rename_i curated hra
    cases hok
    exact renderAll_entries (selectedSamples sampler samples num)
      (fun s hm => hwf s (selectedSamples_mem sampler hs samples num s hm)) 1 _ hra

/-- Witness for C8 at a concrete one-sample run of the curator. -/
theorem claim_C8_witness :
    create_sample_genotypes takeSampler [⟨"sB", "fB", [("rs4244285", "AG")], 1⟩] 1 =
      .ok ([⟨"sample_01.txt", "sB", [⟨"rs4244285", "CYP2C19", 0, "AG"⟩]⟩],
           ⟨1, [⟨"sample_01.txt", "sB", 1⟩]⟩) ∧
    List.Forall₂ (fun (c : CuratedSample) (e : SummaryEntry) =>
        c.rendered_lines.length = e.pgx_snp_count ∧
        ∀ l ∈ c.rendered_lines, l.position = 0)
      [⟨"sample_01.txt", "sB", [⟨"rs4244285", "CYP2C19", 0, "AG"⟩]⟩]
      (⟨1, [⟨"sample_01.txt", "sB", 1⟩]⟩ : SampleSummary).entries :=
  ⟨rfl,
   claim_C8 takeSampler [⟨"sB", "fB", [("rs4244285", "AG")], 1⟩] 1
     [⟨"sample_01.txt", "sB", [⟨"rs4244285", "CYP2C19", 0, "AG"⟩]⟩]
     ⟨1, [⟨"sample_01.txt", "sB", 1⟩]⟩
     takeSampler_spec (by decide) rfl⟩

end Pharmxd
